import Mathlib

/-!
# A shallow embedding of the vuex-rv store core

This development models the module composition and dispatch engine of the
repository (src/store.js, src/store-util.js, src/module/module-collection.js)
and proves the specification's claims about it.

Conventions of the embedding:
* JavaScript values are modelled by the inductive `JVal`; objects are
  association lists in property-insertion order.
* In-place mutation is modelled by explicit state passing: each operation
  takes the relevant state and returns the new state, plus a list of
  observable events (`Ev`) recording handler invocations, subscriber
  notifications and console diagnostics.
* `__DEV__` is a `dev : Bool` parameter on the operations that branch on it.
* Crashing JavaScript accesses (property reads through `undefined`) are
  modelled with `Option`; writes through unresolvable paths leave the value
  unchanged — the claims only exercise resolvable paths.
-/

namespace VuexRv

/-- A JavaScript value, as far as the store core needs one: `undefined`,
`null`, booleans, integers, strings, plain objects (association lists in
property-insertion order) and arrays. -/
inductive JVal where
  | undefined
  | null
  | bool (b : Bool)
  | num (n : Int)
  | str (s : String)
  | obj (fields : List (String × JVal))
  | arr (elems : List JVal)
deriving Inhabited

/-- Overwrite the binding of `k` in an association list, preserving its
position; append a new binding when the key is absent.  This is how property
assignment behaves on a JavaScript object. -/
def setKey {α : Type} (l : List (String × α)) (k : String) (v : α) : List (String × α) :=
  match l with
  | [] => [(k, v)]
  | (k', v') :: rest => if k' = k then (k, v) :: rest else (k', v') :: setKey rest k v

/-- Look a key up in an association list. -/
def getKey {α : Type} (l : List (String × α)) (k : String) : Option α :=
  match l with
  | [] => none
  | (k', v') :: rest => if k' = k then some v' else getKey rest k

/-- Remove a binding from an association list (JavaScript `delete`). -/
def delKey {α : Type} (l : List (String × α)) (k : String) : List (String × α) :=
  match l with
  | [] => []
  | (k', v') :: rest => if k' = k then rest else (k', v') :: delKey rest k

/-- Property read: `v[k]`, yielding `undefined` on a miss or a non-object. -/
def jsGet (v : JVal) (k : String) : JVal :=
  match v with
  | .obj fields => (getKey fields k).getD .undefined
  | _ => .undefined

/-- The JavaScript `k in v` test on an object. -/
def jsHasKey (v : JVal) (k : String) : Bool :=
  match v with
  | .obj fields => (getKey fields k).isSome
  | _ => false

/-- Property write `v[k] = x`; a non-object target is left unchanged (the
claims only write through resolved object references). -/
def jsSet (v : JVal) (k : String) (x : JVal) : JVal :=
  match v with
  | .obj fields => .obj (setKey fields k x)
  | _ => v

/-- Property removal `delete v[k]`. -/
def jsDelete (v : JVal) (k : String) : JVal :=
  match v with
  | .obj fields => .obj (delKey fields k)
  | _ => v

/-- JavaScript truthiness, restricted to the values `JVal` models. -/
def truthy : JVal → Bool
  | .undefined => false
  | .null => false
  | .bool b => b
  | .num n => n ≠ 0
  | .str s => s ≠ ""
  | .obj _ => true
  | .arr _ => true

/-- `isObject` from src/util.js: `obj !== null && typeof obj === 'object'`. -/
def isObject : JVal → Bool
  | .obj _ => true
  | .arr _ => true
  | .null => false
  | _ => false

/-- `getNestedState` from src/store-util.js:
`path.reduce((state, key) => state[key], state)`. -/
def getNestedState (state : JVal) (path : List String) : JVal :=
  path.foldl jsGet state

/-- Rewrite the value found at a nested path in place; unresolvable paths
leave the value unchanged (the source would have crashed earlier). -/
def modifyNested (state : JVal) (path : List String) (f : JVal → JVal) : JVal :=
  match path with
  | [] => f state
  | k :: rest =>
    match state with
    | .obj fields =>
      match getKey fields k with
      | some v => .obj (setKey fields k (modifyNested v rest f))
      | none => state
    | _ => state

/-! ## Module definitions and the module tree -/

/-- The settlement of a JavaScript promise: fulfilled with a value or
rejected with a reason. -/
abbrev Settled := Except JVal JVal

/-- What a raw action handler returns: either a plain value or a promise.
`registerAction` normalizes both into a promise (`Promise.resolve(res)` when
`!isPromise(res)`). -/
inductive ActRet where
  | plain (v : JVal)
  | promise (s : Settled)

/-- A raw mutation handler `(localState, payload)`; in-place mutation of the
local state is modelled by returning the new local state. -/
abbrev MutFn := JVal → JVal → JVal

/-- A raw action handler applied to its payload.  The claims about dispatch
concern only the awaitable each handler yields, so the handler is modelled
by its payload-to-settlement behaviour; the context object it receives
(`{dispatch, commit, getters, state, rootGetters, rootState}`) is built by
`registerAction` from the local context and is not needed to settle them. -/
abbrev ActFn := JVal → ActRet

/-- A declared action: either a bare function or an object
`{ root?, handler }` (src/store-util.js lines 160-164 reads `action.root`
and `action.handler || action`). -/
structure ActDef where
  root : Bool
  handler : ActFn

/-- A raw module definition, as passed to `createStore`, `registerModule`
and `hotUpdate`: the `{state, mutations, actions, getters, modules,
namespaced}` options object.  The state factory is modelled as already
applied; getter functions play no role in any claim, so getters are carried
by name. -/
inductive RawModule where
  | mk (namespaced : Bool)
       (state : JVal)
       (mutations : List (String × MutFn))
       (actions : List (String × ActDef))
       (getters : List String)
       (modules : List (String × RawModule))

def RawModule.namespaced : RawModule → Bool
  | .mk ns _ _ _ _ _ => ns

def RawModule.state : RawModule → JVal
  | .mk _ st _ _ _ _ => st

def RawModule.mutations : RawModule → List (String × MutFn)
  | .mk _ _ ms _ _ _ => ms

def RawModule.actions : RawModule → List (String × ActDef)
  | .mk _ _ _ as _ _ => as

def RawModule.getters : RawModule → List String
  | .mk _ _ _ _ gs _ => gs

def RawModule.modules : RawModule → List (String × RawModule)
  | .mk _ _ _ _ _ mods => mods

/-- Modelled from the spec: the `Module` class (src/module/module.js is not
part of the sources) per §4.1/§3 — a node holding its current
mutation/action/getter definitions, its `namespaced` flag, its `runtime`
flag (added dynamically vs. present at construction), its materialized
`state`, and its children keyed by local name. -/
inductive Module where
  | mk (namespaced : Bool)
       (mutations : List (String × MutFn))
       (actions : List (String × ActDef))
       (getters : List String)
       (runtime : Bool)
       (state : JVal)
       (children : List (String × Module))

def Module.namespaced : Module → Bool
  | .mk ns _ _ _ _ _ _ => ns

def Module.mutations : Module → List (String × MutFn)
  | .mk _ ms _ _ _ _ _ => ms

def Module.actions : Module → List (String × ActDef)
  | .mk _ _ as _ _ _ _ => as

def Module.getters : Module → List String
  | .mk _ _ _ gs _ _ _ => gs

def Module.runtime : Module → Bool
  | .mk _ _ _ _ rt _ _ => rt

def Module.state : Module → JVal
  | .mk _ _ _ _ _ st _ => st

def Module.children : Module → List (String × Module)
  | .mk _ _ _ _ _ _ cs => cs

/-- Modelled from the spec (§4.1): `getChild` is a plain map lookup. -/
def Module.getChild (m : Module) (k : String) : Option Module :=
  getKey m.children k

/-- Modelled from the spec (§4.1): `hasChild` is a plain map membership
test. -/
def Module.hasChild (m : Module) (k : String) : Bool :=
  (m.getChild k).isSome

/-- Modelled from the spec (§4.1): `addChild` on an existing key
overwrites. -/
def Module.addChild (m : Module) (k : String) (c : Module) : Module :=
  match m with
  | .mk ns ms as gs rt st cs => .mk ns ms as gs rt st (setKey cs k c)

/-- Modelled from the spec (§4.1): `removeChild` detaches the child. -/
def Module.removeChild (m : Module) (k : String) : Module :=
  match m with
  | .mk ns ms as gs rt st cs => .mk ns ms as gs rt st (delKey cs k)

/-- Modelled from the spec (§4.1): `update(newRawDefinition)` replaces the
mutation/action/getter definitions in place while leaving the
already-materialized `state` (and the materialized children, which
`ModuleCollection.update` walks separately) untouched. -/
def Module.update (m : Module) (raw : RawModule) : Module :=
  match m with
  | .mk ns _ _ _ rt st cs => .mk ns raw.mutations raw.actions raw.getters rt st cs

/-- Build the `Module` a single `new Module(rawModule, runtime)` yields:
definition pieces copied from the raw definition, no children yet
(`ModuleCollection.register` attaches children itself). -/
def Module.ofRaw (raw : RawModule) (runtime : Bool) : Module :=
  .mk raw.namespaced raw.mutations raw.actions raw.getters runtime raw.state []

/-- Rewrite the module found at `path` below `m`; an unresolvable path
leaves the tree unchanged (the source would have crashed resolving it). -/
def Module.modifyAt (m : Module) (path : List String) (f : Module → Module) : Module :=
  match path with
  | [] => f m
  | k :: rest =>
    match m.getChild k with
    | none => m
    | some c => m.addChild k (c.modifyAt rest f)

/-- The three action-subscriber phases of `Store.dispatch`. -/
inductive Phase where
  | before
  | after
  | error
deriving DecidableEq, Repr

/-- Observable events of a store operation, in the order they happen:
console diagnostics (`report` = `console.error`, `warn` = `console.warn`,
both emitted only in dev builds; `assertFail` = a thrown dev assertion),
mutation handler invocations (recording the value of `store._committing` at
the moment the handler runs), mutation subscriber notifications, action
subscriber invocations and the `catch` of an exception a subscriber threw. -/
inductive Ev where
  | report (msg : String)
  | warn (msg : String)
  | assertFail (msg : String)
  | mutHandler (i : Nat) (committing : Bool)
  | mutNotify (subId : Nat)
  | aSub (ph : Phase) (i : Nat)
  | aCatch (ph : Phase)
deriving DecidableEq, Repr

/-- `ModuleCollection`: the rooted tree of modules. -/
structure ModuleCollection where
  root : Module

namespace ModuleCollection

/-- `get(path)` from src/module/module-collection.js:
`path.reduce((module, key) => module.getChild(key), this.root)`; a lookup
through a missing child is a crash in the source, `none` here. -/
def get (mc : ModuleCollection) (path : List String) : Option Module :=
  path.foldl (fun om k => om.bind (fun m => m.getChild k)) (some mc.root)

/-- The fold body of `getNamespace`, threading the current module:
`namespace + (module.namespaced ? key + '/' : '')`. -/
def getNamespaceAux : Module → List String → String → Option String
  | _, [], acc => some acc
  | m, k :: rest, acc =>
    match m.getChild k with
    | none => none
    | some c => getNamespaceAux c rest (acc ++ (if c.namespaced then k ++ "/" else ""))

/-- `getNamespace(path)` from src/module/module-collection.js lines 16-22. -/
def getNamespace (mc : ModuleCollection) (path : List String) : Option String :=
  getNamespaceAux mc.root path ""

mutual

/-- `register(path, rawModule, runtime)` from src/module/module-collection.js
lines 28-54: create the module, attach it (or make it the root), then
recursively register every declared child under the extended path. -/
def register (mc : ModuleCollection) (path : List String) (raw : RawModule)
    (runtime : Bool) : ModuleCollection :=
  match raw with
  | .mk ns st ms as gs mods =>
    let newModule := Module.ofRaw (.mk ns st ms as gs mods) runtime
    let mc' : ModuleCollection :=
      if path = [] then ⟨newModule⟩
      else ⟨mc.root.modifyAt path.dropLast (fun p => p.addChild (path.getLastD "") newModule)⟩
    registerChildren mc' path mods runtime

/-- The `forEachValue(rawModule.modules, …)` recursion inside `register`. -/
def registerChildren (mc : ModuleCollection) (path : List String)
    (mods : List (String × RawModule)) (runtime : Bool) : ModuleCollection :=
  match mods with
  | [] => mc
  | (k, child) :: rest =>
    registerChildren (register mc (path ++ [k]) child runtime) path rest runtime

end

/-- The `ModuleCollection` constructor: `this.register([], rawRootModule,
false)` — every statically declared module gets `runtime = false`. -/
def ofOptions (raw : RawModule) : ModuleCollection :=
  register ⟨Module.ofRaw raw false⟩ [] raw false

/-- `isRegistered(path)` from src/module/module-collection.js lines 80-89. -/
def isRegistered (mc : ModuleCollection) (path : List String) : Bool :=
  match mc.get path.dropLast with
  | some parent => parent.hasChild (path.getLastD "")
  | none => false

/-- `unregister(path)` from src/module/module-collection.js lines 57-78:
warn (dev) and do nothing when there is no child at the path; silently do
nothing when the child was not created with `runtime = true`; otherwise
detach it from its parent. -/
def unregister (dev : Bool) (mc : ModuleCollection) (path : List String) :
    ModuleCollection × List Ev :=
  match mc.get path.dropLast with
  | none => (mc, [])
  | some parent =>
    let key := path.getLastD ""
    match parent.getChild key with
    | none =>
      (mc, if dev then
        [.warn ("trying to unregister module " ++ key ++ ", which is not registered")]
      else [])
    | some child =>
      if !child.runtime then (mc, [])
      else (⟨mc.root.modifyAt path.dropLast (fun p => p.removeChild key)⟩, [])

end ModuleCollection

mutual

/-- The free function `update(path, targetModule, newModule)` from
src/module/module-collection.js lines 92-119: replace the target's
definitions via `Module.update`, then walk the declared child definitions
in lock-step with the existing children. -/
def updateModuleDef (dev : Bool) (path : List String) (target : Module)
    (raw : RawModule) : Module × List Ev :=
  match raw with
  | .mk ns st ms as gs mods =>
    let target' := target.update (.mk ns st ms as gs mods)
    updateChildrenDef dev path target' mods

/-- The `for (const key in newModule.modules)` loop of `update`: a child key
absent from the existing tree warns (dev) and aborts the walk — including
the keys that would have followed it — because the source `return`s out of
the whole call. -/
def updateChildrenDef (dev : Bool) (path : List String) (target : Module)
    (mods : List (String × RawModule)) : Module × List Ev :=
  match mods with
  | [] => (target, [])
  | (k, newChild) :: rest =>
    match target.getChild k with
    | none =>
      (target, if dev then
        [.warn ("trying to add a new module " ++ k ++ " on hot reloading, manual reload is needed")]
      else [])
    | some c =>
      let r := updateModuleDef dev (path ++ [k]) c newChild
      let r' := updateChildrenDef dev path (target.addChild k r.1) rest
      (r'.1, r.2 ++ r'.2)

end

/-- `ModuleCollection.update(rawRootModule)`:
`update([], this.root, rawRootModule)`. -/
def ModuleCollection.update (dev : Bool) (mc : ModuleCollection)
    (raw : RawModule) : ModuleCollection × List Ev :=
  let r := updateModuleDef dev [] mc.root raw
  (⟨r.1⟩, r.2)

/-! ## The store -/

/-- An action subscriber as registered by `subscribeAction`: up to three
hooks.  `some b` means the hook is present and `b` tells whether invoking it
throws; `none` means the hook is absent (filtered out by
`.filter(sub => sub.before)` and friends). -/
structure ASub where
  before : Option Bool := none
  after : Option Bool := none
  error : Option Bool := none

/-- The store: `_committing`, the composed state (`_state.data`), the three
flat registries (`_mutations`, `_actions`, `_wrappedGetters`), the
namespace map, the subscriber lists and the module tree.  Wrapped mutation
handlers map a payload and the composed state to the new composed state;
wrapped action handlers map a payload to the settlement of the promise
`registerAction` normalizes their result into.  Mutation subscribers are
carried by an identifying tag, action subscribers by their hook structure.
Getter functions play no part in any claim, so `_wrappedGetters` carries
the registered keys. -/
structure Store where
  committing : Bool
  stateData : JVal
  mutations : List (String × List (JVal → JVal → JVal))
  actions : List (String × List (JVal → Settled))
  wrappedGetters : List String
  modulesNamespaceMap : List String
  subscribers : List Nat
  actionSubscribers : List ASub
  modules : ModuleCollection

/-- `Store._withCommit(fn)` from src/store.js lines 276-281: save
`_committing`, set it to `true`, run `fn`, restore the saved value. -/
def Store.withCommit {α : Type} (s : Store) (f : Store → Store × α) : Store × α :=
  let committing := s.committing
  let r := f {s with committing := true}
  ({r.1 with committing := committing}, r.2)

/-- The `entry.forEach(commitIterator)` loop of `Store.commit`, recording
for every handler the value of `_committing` at the moment it runs. -/
def runMutHandlersAux (payload : JVal) (i : Nat) :
    List (JVal → JVal → JVal) → Store → Store × List Ev
  | [], s => (s, [])
  | h :: rest, s =>
    let ev := Ev.mutHandler i s.committing
    let r := runMutHandlersAux payload (i + 1) rest {s with stateData := h payload s.stateData}
    (r.1, ev :: r.2)

def runMutHandlers (entry : List (JVal → JVal → JVal)) (payload : JVal)
    (s : Store) : Store × List Ev :=
  runMutHandlersAux payload 0 entry s

/-- `unifyObjectStyle(type, payload, options)` from src/store-util.js lines
347-359: object-style calls carry the type in `.type`, become the payload
themselves, and shift the old payload into the options slot. -/
def unifyObjectStyle (type payload options : JVal) : JVal × JVal × JVal :=
  if isObject type && truthy (jsGet type "type") then
    (jsGet type "type", type, payload)
  else
    (type, payload, options)

/-- `Store.commit(_type, _payload, _options)` from src/store.js lines
107-144.  A non-string unified type fails the dev assertion inside
`unifyObjectStyle`; no claim exercises that branch. -/
def Store.commit (dev : Bool) (s : Store) (ty payload opts : JVal) :
    Store × List Ev :=
  let u := unifyObjectStyle ty payload opts
  match u.1 with
  | .str type =>
    match getKey s.mutations type with
    | none => (s, if dev then [.report ("unknown mutation type: " ++ type)] else [])
    | some entry =>
      let r := s.withCommit (runMutHandlers entry u.2.1)
      let notifyEvs := r.1.subscribers.map Ev.mutNotify
      let silentEvs :=
        if dev && truthy (jsGet u.2.2 "silent") then
          [Ev.warn ("mutation type: " ++ type ++ ". Silent option has been removed.")]
        else []
      (r.1, r.2 ++ notifyEvs ++ silentEvs)
  | _ => (s, if dev then [.assertFail "expects string as the type"] else [])

/-- Sequence a list of settlements the way `Promise.all` combines its
already-settled inputs: all fulfilled ⇒ fulfilled with the list of values;
otherwise rejected with the reason of the earliest rejection in handler
order (the embedding's synchronous-settlement rendering of "the first
rejection to occur"). -/
def seqSettled : List Settled → Except JVal (List JVal)
  | [] => .ok []
  | .error e :: _ => .error e
  | .ok v :: rest => (seqSettled rest).map (fun vs => v :: vs)

/-- `Promise.all(entry.map(handler => handler(payload)))`. -/
def promiseAll (l : List Settled) : Settled :=
  (seqSettled l).map JVal.arr

/-- One action-subscriber phase: the filtered hooks run in order inside a
single `try`; the first hook that throws ends the phase, and the
surrounding `catch` (which logs in dev) absorbs the exception. -/
def runPhaseAux (ph : Phase) : Nat → List Bool → List Ev
  | _, [] => []
  | i, throws :: rest =>
    Ev.aSub ph i :: (if throws then [Ev.aCatch ph] else runPhaseAux ph (i + 1) rest)

def runPhase (ph : Phase) (hooks : List Bool) : List Ev :=
  runPhaseAux ph 0 hooks

/-- `Store.dispatch(_type, _payload)` from src/store.js lines 146-206:
unknown types report (dev) and return `undefined` (`none`); otherwise the
"before" subscribers run, the result is `Promise.all` over the handlers
when there are more than one and the single handler's promise otherwise,
and the "after" ("error") subscribers run on fulfillment (rejection) before
the returned promise settles the same way. -/
def Store.dispatch (dev : Bool) (s : Store) (ty payload : JVal) :
    List Ev × Option Settled :=
  let u := unifyObjectStyle ty payload .undefined
  match u.1 with
  | .str type =>
    match getKey s.actions type with
    | none => ((if dev then [.report ("unknown action type: " ++ type)] else []), none)
    | some entry =>
      let beforeEvs := runPhase .before (s.actionSubscribers.filterMap (·.before))
      let outcomes := entry.map (fun h => h u.2.1)
      let result :=
        if entry.length > 1 then promiseAll outcomes
        else outcomes.headD (.ok .undefined)
      match result with
      | .ok v =>
        (beforeEvs ++ runPhase .after (s.actionSubscribers.filterMap (·.after)), some (.ok v))
      | .error e =>
        (beforeEvs ++ runPhase .error (s.actionSubscribers.filterMap (·.error)), some (.error e))
  | _ => ((if dev then [.assertFail "expects string as the type"] else []), none)

/-! ## Registry construction (installation) -/

/-- `registerMutation(store, type, handler, local)` from src/store-util.js
lines 276-282: append (`push`, never overwrite) a wrapped handler that
applies the raw handler to `local.state` — the state slice at the module's
path — and the payload. -/
def registerMutation (s : Store) (type : String) (handler : MutFn)
    (path : List String) : Store :=
  let entry := (getKey s.mutations type).getD []
  let wrapped : JVal → JVal → JVal := fun payload st =>
    modifyNested st path (fun localState => handler localState payload)
  {s with mutations := setKey s.mutations type (entry ++ [wrapped])}

/-- `registerAction(store, type, handler, local)` from src/store-util.js
lines 284-308: append a wrapped handler whose result is normalized into a
promise (`Promise.resolve(res)` when `!isPromise(res)`). -/
def registerAction (s : Store) (type : String) (handler : ActFn) : Store :=
  let entry := (getKey s.actions type).getD []
  let wrapped : JVal → Settled := fun payload =>
    match handler payload with
    | .plain v => .ok v
    | .promise p => p
  {s with actions := setKey s.actions type (entry ++ [wrapped])}

/-- `registerGetter(store, type, rawGetter, local)` from src/store-util.js
lines 315-331: a duplicate key reports (dev) and is skipped — first wins. -/
def registerGetter (dev : Bool) (s : Store) (type : String) : Store × List Ev :=
  if s.wrappedGetters.contains type then
    (s, if dev then [.report ("duplicate getter key: " ++ type)] else [])
  else
    ({s with wrappedGetters := s.wrappedGetters ++ [type]}, [])

/-- The `if (!isRoot && !hot)` block of `installModule` (src/store-util.js
lines 133-149): under `_withCommit`, warn (dev) when the module's key
already exists on the resolved parent state, then assign the module's state
into that slot. -/
def setChildState (dev : Bool) (s : Store) (path : List String)
    (childState : JVal) : Store × List Ev :=
  let parentPath := path.dropLast
  let moduleName := path.getLastD ""
  s.withCommit (fun s =>
    let parentState := getNestedState s.stateData parentPath
    let warnEvs :=
      if dev && jsHasKey parentState moduleName then
        [Ev.warn ("state field " ++ moduleName ++ " was overridden by a module with the same name")]
      else []
    let newState := modifyNested s.stateData parentPath
      (fun ps => jsSet ps moduleName childState)
    ({s with stateData := newState}, warnEvs))

def installMutations (s : Store) (nsp : String) (path : List String)
    (ms : List (String × MutFn)) : Store :=
  ms.foldl (fun s km => registerMutation s (nsp ++ km.1) km.2 path) s

/-- Actions flagged `root: true` bypass the namespace
(src/store-util.js line 161: `action.root ? key : namespace + key`). -/
def installActions (s : Store) (nsp : String)
    (as : List (String × ActDef)) : Store :=
  as.foldl (fun s ka =>
    registerAction s (if ka.2.root then ka.1 else nsp ++ ka.1) ka.2.handler) s

def installGetters (dev : Bool) (s : Store) (nsp : String)
    (gs : List String) : Store × List Ev :=
  gs.foldl (fun (p : Store × List Ev) g =>
    let r := registerGetter dev p.1 (nsp ++ g)
    (r.1, p.2 ++ r.2)) (s, [])

/-- The `if (module.namespaced)` block of `installModule` (src/store-util.js
lines 123-129): report a duplicate namespace (dev) and record the namespace
in the map. -/
def nsMapStep (dev : Bool) (s : Store) (ns : Bool) (nsp : String) :
    Store × List Ev :=
  if ns then
    let dupEvs :=
      if s.modulesNamespaceMap.contains nsp && dev then
        [Ev.report ("duplicate namespace " ++ nsp)]
      else []
    ({s with modulesNamespaceMap :=
        if s.modulesNamespaceMap.contains nsp then s.modulesNamespaceMap
        else s.modulesNamespaceMap ++ [nsp]}, dupEvs)
  else (s, [])

/-- The conditional around the state splice of `installModule`
(src/store-util.js line 133: `if (!isRoot && !hot)`). -/
def spliceStep (dev : Bool) (r1 : Store × List Ev) (isRoot hot : Bool)
    (path : List String) (st : JVal) : Store × List Ev :=
  if !isRoot && !hot then
    let r := setChildState dev r1.1 path st
    (r.1, r1.2 ++ r.2)
  else r1

mutual

/-- `installModule(store, rootState, path, module, hot)` from
src/store-util.js lines 114-174: record a namespaced module in the
namespace map (reporting duplicates in dev), splice its state into the
parent slot unless this is the root or a hot (re)install, register its
mutations, actions and getters under their fully-qualified names, and
recurse into its children.  `rootState` and the store state are the same
object in every call site, so the embedding threads `s.stateData`. -/
def installModule (dev : Bool) (s : Store) (path : List String) (m : Module)
    (hot : Bool) : Store × List Ev :=
  match m with
  | .mk ns ms as gs _rt st cs =>
    let nsp := (s.modules.getNamespace path).getD ""
    let r2 := spliceStep dev (nsMapStep dev s ns nsp) path.isEmpty hot path st
    let s2 := installActions (installMutations r2.1 nsp path ms) nsp as
    let r3 := installGetters dev s2 nsp gs
    let r4 := installChildren dev r3.1 path cs hot
    (r4.1, r2.2 ++ r3.2 ++ r4.2)

/-- The `module.forEachChild` recursion of `installModule`. -/
def installChildren (dev : Bool) (s : Store) (path : List String)
    (cs : List (String × Module)) (hot : Bool) : Store × List Ev :=
  match cs with
  | [] => (s, [])
  | (k, c) :: rest =>
    let r := installModule dev s (path ++ [k]) c hot
    let r' := installChildren dev r.1 path rest hot
    (r'.1, r.2 ++ r'.2)

end

/-- `resetStoreState(store, state, hot, reserve)` from src/store-util.js
lines 35-112.  The computed-getter rebuild, the effect-scope bookkeeping and
the reactive wrapping live in the external reactivity collaborator; on the
fields the embedding models this is `store._state = reactive({ data: state })`
(the `hot` branch nulls the data of the *replaced* old container, which is
unreachable afterwards). -/
def resetStoreState (s : Store) (state : JVal) (_hot : Bool) : Store :=
  {s with stateData := state}

/-- `resetStore(store, hot)` from src/store-util.js lines 20-30: empty the
four maps, reinstall the whole tree with `hot = true`, then reset the store
state with the same composed state object. -/
def resetStore (dev : Bool) (s : Store) (hot : Bool) : Store × List Ev :=
  let s1 := {s with actions := [], mutations := [], wrappedGetters := [],
                    modulesNamespaceMap := []}
  let r := installModule dev s1 [] s1.modules.root true
  (resetStoreState r.1 r.1.stateData hot, r.2)

/-- The `Store` constructor (src/store.js lines 20-82) for a root options
object: build the module tree (statically declared, `runtime = false`),
take the root state, install every module into it, then initialize the
store state with the composed result. -/
def createStore (dev : Bool) (raw : RawModule) : Store × List Ev :=
  let modules := ModuleCollection.ofOptions raw
  let s0 : Store :=
    { committing := false
      stateData := modules.root.state
      mutations := []
      actions := []
      wrappedGetters := []
      modulesNamespaceMap := []
      subscribers := []
      actionSubscribers := []
      modules := modules }
  let r := installModule dev s0 [] modules.root false
  (resetStoreState r.1 r.1.stateData false, r.2)

/-- `Store.hasModule(path)` from src/store.js lines 259-267. -/
def Store.hasModule (s : Store) (path : List String) : Bool :=
  s.modules.isRegistered path

/-- `Store.unregisterModule(path)` from src/store.js lines 244-257: ask the
module tree to unregister, then — unconditionally — delete the state slice
at the path under `_withCommit`, and rebuild the store. -/
def Store.unregisterModule (dev : Bool) (s : Store) (path : List String) :
    Store × List Ev :=
  let r1 := s.modules.unregister dev path
  let s1 := {s with modules := r1.1}
  let r2 : Store × Unit := s1.withCommit (fun s =>
    let newState := modifyNested s.stateData path.dropLast
      (fun ps => jsDelete ps (path.getLastD ""))
    ({s with stateData := newState}, ()))
  let r3 := resetStore dev r2.1 false
  (r3.1, r1.2 ++ r3.2)

/-- `Store.hotUpdate(newOptions)` from src/store.js lines 269-274. -/
def Store.hotUpdate (dev : Bool) (s : Store) (newRaw : RawModule) :
    Store × List Ev :=
  let r1 := s.modules.update dev newRaw
  let s1 := {s with modules := r1.1}
  let r2 := resetStore dev s1 true
  (r2.1, r1.2 ++ r2.2)

/-! ## The scoped (local) context -/

/-- What a scoped `dispatch`/`commit` does with a call: delegate to the
store's top-level `dispatch`/`commit` with the given arguments, or return
without delegating (the dev-only unknown-local-type error). -/
inductive LocalCall where
  | delegated (type : JVal) (payload : JVal) (options : JVal)
  | blocked

/-- The `dispatch` of `makeLocalContext(store, namespace, path)`
(src/store-util.js lines 190-205).  With an empty namespace the local
dispatch *is* the bound store dispatch, which consumes only `(type,
payload)`.  Otherwise the arguments are unified, the type is prefixed with
the namespace unless `options.root` is truthy, and in dev an unregistered
prefixed type errors and returns without delegating. -/
def localDispatch (dev : Bool) (nsp : String) (s : Store)
    (ty payload opts : JVal) : LocalCall :=
  if nsp = "" then .delegated ty payload .undefined
  else
    let u := unifyObjectStyle ty payload opts
    match u.1 with
    | .str t0 =>
      let o := u.2.2
      if !truthy o || !truthy (jsGet o "root") then
        let t1 := nsp ++ t0
        if dev && (getKey s.actions t1).isNone then .blocked
        else .delegated (.str t1) u.2.1 .undefined
      else .delegated (.str t0) u.2.1 .undefined
    | _ => .blocked

/-- The `commit` of `makeLocalContext` (src/store-util.js lines 207-221);
same shape as the local dispatch, but checked against `_mutations` and
delegating the unified options as well. -/
def localCommit (dev : Bool) (nsp : String) (s : Store)
    (ty payload opts : JVal) : LocalCall :=
  if nsp = "" then .delegated ty payload opts
  else
    let u := unifyObjectStyle ty payload opts
    match u.1 with
    | .str t0 =>
      let o := u.2.2
      if !truthy o || !truthy (jsGet o "root") then
        let t1 := nsp ++ t0
        if dev && (getKey s.mutations t1).isNone then .blocked
        else .delegated (.str t1) u.2.1 o
      else .delegated (.str t0) u.2.1 o
    | _ => .blocked

/-! ## Commit-window programs

`_withCommit` bodies in the source (`commit`'s handler loop,
`replaceState`'s assignment, `installModule`'s state splice,
`unregisterModule`'s delete) update store data but never write
`_committing` themselves; the only way they toggle the flag is a nested
`_withCommit` (a commit performed inside another commit's handler).  `CProg`
is that shape of program, and `execP` runs one, recording the value of
`_committing` observed at every primitive step. -/

inductive CProg where
  | prim (f : JVal → JVal)
  | seq (p q : CProg)
  | withCommitP (p : CProg)

/-- Run a commit-window program from a committing flag and a state; yields
the final flag, the final state, and the flag observed at each primitive
step in execution order.  The `withCommitP` case is `Store._withCommit`:
save the flag, run the body with the flag `true`, restore the saved flag. -/
def execP : CProg → Bool → JVal → Bool × JVal × List Bool
  | .prim f, c, st => (c, f st, [c])
  | .seq p q, c, st =>
    let r1 := execP p c st
    let r2 := execP q r1.1 r1.2.1
    (r2.1, r2.2.1, r1.2.2 ++ r2.2.2)
  | .withCommitP p, c, st =>
    let committing := c
    let r := execP p true st
    (committing, r.2.1, r.2.2)

/-! ## Spec-side definitions

These definitions follow the specification's words, for comparison with the
functions translated from the source. -/

/-- The modules sitting on a path (excluding the root, which contributes no
key), in order from the root; `none` when the path does not resolve. -/
def pathModules (m : Module) : List String → Option (List Module)
  | [] => some []
  | k :: rest =>
    match m.getChild k with
    | none => none
    | some c => (pathModules c rest).map (fun ms => c :: ms)

/-- Written from the spec's words for the namespace of a path: "the
concatenation, in order from the root along the path, of key + '/' for
exactly those modules on the path (including the node itself) whose
namespaced flag is true, with non-namespaced modules contributing
nothing". -/
def specNamespace : List String → List Module → String
  | k :: keys, m :: ms =>
    (if m.namespaced then k ++ "/" else "") ++ specNamespace keys ms
  | _, _ => ""

/-- The tree of materialized per-module state values. -/
inductive StateTree where
  | node (state : JVal) (children : List (String × StateTree))

mutual

def Module.stateTree (m : Module) : StateTree :=
  match m with
  | .mk _ _ _ _ _ st cs => .node st (childStateTrees cs)

def childStateTrees (cs : List (String × Module)) : List (String × StateTree) :=
  match cs with
  | [] => []
  | (k, c) :: rest => (k, c.stateTree) :: childStateTrees rest

end

mutual

/-- The hypothesis of the hot-update claim: the new definition tree
introduces no structurally new child keys — every declared child key exists
in the current module tree, recursively. -/
def rawCompatible (m : Module) (raw : RawModule) : Bool :=
  match raw with
  | .mk _ _ _ _ _ mods => rawChildrenCompatible m mods

def rawChildrenCompatible (m : Module) (mods : List (String × RawModule)) : Bool :=
  match mods with
  | [] => true
  | (k, child) :: rest =>
    match m.getChild k with
    | none => false
    | some c => rawCompatible c child && rawChildrenCompatible m rest

end

/-- Whether a settlement is a fulfillment. -/
def settledOk : Settled → Bool
  | .ok _ => true
  | .error _ => false

/-- The store fields no installation pass may touch: the module tree, the
committing flag and the two subscriber lists. -/
def SameCore (s s' : Store) : Prop :=
  s'.modules = s.modules ∧ s'.committing = s.committing ∧
    s'.subscribers = s.subscribers ∧ s'.actionSubscribers = s.actionSubscribers

/-- What an installation pass preserves: the core fields always, and the
composed state whenever the pass runs in hot mode (where the state splice is
skipped). -/
def CorePres (hot : Bool) (s s' : Store) : Prop :=
  SameCore s s' ∧ (hot = true → s'.stateData = s.stateData)

/-! ## Concrete instances used by witnesses and counterexamples -/

/-- A module with nothing in it. -/
def emptyModule : Module := .mk false [] [] [] false (.obj []) []

/-- A store with nothing registered, used as the base of the concrete
instances. -/
def emptyStore : Store :=
  { committing := false
    stateData := .obj []
    mutations := []
    actions := []
    wrappedGetters := []
    modulesNamespaceMap := []
    subscribers := []
    actionSubscribers := []
    modules := ⟨emptyModule⟩ }

/-- A two-level tree for the namespace claim: `a` is namespaced, its child
`b` is not. -/
def nsModB : Module := .mk false [] [] [] false .undefined []
def nsModA : Module := .mk true [] [] [] false .undefined [("b", nsModB)]
def nsRoot : ModuleCollection := ⟨.mk false [] [] [] false .undefined [("a", nsModA)]⟩

/-- Two mutation handlers under one type plus two subscribers, for the
commit fan-out claim. -/
def fanEntry : List (JVal → JVal → JVal) :=
  [fun _ st => jsSet st "n" (.num 1), fun _ st => jsSet st "m" (.num 2)]
def fanStore : Store :=
  {emptyStore with mutations := [("m", fanEntry)], subscribers := [0, 1]}

/-- A singleton and a two-handler action registry for the dispatch
aggregation claim. -/
def oneAct : List (JVal → Settled) := [fun p => .ok p]
def twoAct : List (JVal → Settled) :=
  [fun _ => .ok (.num 1), fun _ => .error (.str "boom")]
def actStore : Store :=
  {emptyStore with actions := [("one", oneAct), ("two", twoAct)]}

/-- A store with one action and two "before" subscribers, the first of
which throws, for the subscriber-error claim. -/
def subAct : List (JVal → Settled) := [fun _ => .ok .undefined]
def subStore : Store :=
  {emptyStore with
    actions := [("act", subAct)]
    actionSubscribers := [{before := some true}, {before := some false}]}

/-- A store whose action and mutation registries hold the fully-qualified
names `a/x`, for the scoped-context claim. -/
def localStore : Store :=
  {emptyStore with
    actions := [("a/x", [fun _ => .ok .undefined])]
    mutations := [("a/x", [fun _ st => st])]}

/-- Construction options with one statically declared module `a`, for the
unregister claim: root state `{root: 1}`, module state `{x: 1}`. -/
def c1RawA : RawModule := .mk false (.obj [("x", .num 1)]) [] [] [] []
def c1Raw : RawModule := .mk false (.obj [("root", .num 1)]) [] [] [] [("a", c1RawA)]
def c1Store : Store := (createStore true c1Raw).1
def c1Root : Module := (ModuleCollection.ofOptions c1Raw).root
def c1Child : Module := (c1Root.getChild "a").getD emptyModule
def c1After : Store := (c1Store.unregisterModule true ["a"]).1

/-- Construction options whose root state already owns a property `c` and
which also declare a child module named `c`, for the overwrite claim. -/
def c8RawC : RawModule := .mk false (.num 20) [] [] [] []
def c8Raw : RawModule := .mk false (.obj [("c", .num 10)]) [] [] [] [("c", c8RawC)]
def c8Prod := createStore false c8Raw

/-- A one-module store and a replacement definition tree carrying a new
mutation set, for the hot-update claim. -/
def c9Raw : RawModule :=
  .mk false (.obj [("n", .num 0)]) [("inc", fun st _ => st)] [] [] []
def c9Store : Store := (createStore true c9Raw).1
def c9NewRaw : RawModule :=
  .mk false (.obj [("n", .num 99)]) [("inc", fun st _ => jsSet st "n" (.num 7))] [] [] []

/-! # Theorems -/

/-! ## Namespace computation (C3) -/

theorem getNamespaceAux_spec (path : List String) :
    ∀ (m : Module) (acc : String) (ms : List Module),
      pathModules m path = some ms →
      ModuleCollection.getNamespaceAux m path acc = some (acc ++ specNamespace path ms) := by
  induction path with
  | nil =>
    intro m acc ms h
    simp only [pathModules, Option.some.injEq] at h
    subst h
    simp [ModuleCollection.getNamespaceAux, specNamespace]
  | cons k rest ih =>
    intro m acc ms h
    cases hc : m.getChild k with
    | none => simp [pathModules, hc] at h
    | some c =>
      simp only [pathModules, hc, Option.map_eq_some'] at h
      obtain ⟨ms', hms', rfl⟩ := h
      simp only [ModuleCollection.getNamespaceAux, hc]
      rw [ih c _ ms' hms']
      simp [specNamespace, String.append_assoc]

/-- C3: for every path that resolves in the module tree, the computed
namespace string equals the concatenation, in order from the root along the
path, of key + '/' for exactly those modules on the path (including the node
itself) whose namespaced flag is true, with non-namespaced modules
contributing nothing (`specNamespace` is that concatenation, written from
the spec's words). -/
theorem getNamespace_spec (mc : ModuleCollection) (path : List String)
    (ms : List Module) (h : pathModules mc.root path = some ms) :
    mc.getNamespace path = some (specNamespace path ms) := by
  have hx := getNamespaceAux_spec path mc.root "" ms h
  simpa [ModuleCollection.getNamespace, String.empty_append] using hx

/-- Witness for C3: the spec's own example — path `["a","b"]` with only `a`
namespaced yields namespace `"a/"`. -/
theorem getNamespace_spec_witness :
    pathModules nsRoot.root ["a", "b"] = some [nsModA, nsModB] ∧
    nsRoot.getNamespace ["a", "b"] = some (specNamespace ["a", "b"] [nsModA, nsModB]) ∧
    specNamespace ["a", "b"] [nsModA, nsModB] = "a/" :=
  ⟨rfl, getNamespace_spec nsRoot ["a", "b"] [nsModA, nsModB] rfl, rfl⟩

/-! ## The committing window (C10) -/

theorem execP_flag (p : CProg) : ∀ (c : Bool) (st : JVal), (execP p c st).1 = c := by
  induction p with
  | prim f => intro c st; rfl
  | seq p q ihp ihq => intro c st; simp [execP, ihp, ihq]
  | withCommitP p ih => intro c st; rfl

theorem execP_trace_true (p : CProg) :
    ∀ (st : JVal), ((execP p true st).2.2).all (fun b => b) = true := by
  induction p with
  | prim f => intro st; rfl
  | seq p q ihp ihq =>
    intro st
    have h1 := execP_flag p true st
    simp only [execP, List.all_append, Bool.and_eq_true]
    exact ⟨ihp st, by rw [h1]; exact ihq _⟩
  | withCommitP p ih => intro st; simpa [execP] using ih st

/-- C10: `_withCommit` restores `_committing` to its value from before the
call — `Store.withCommit` overwrites the flag with the saved value whatever
the body did — and during the whole synchronous execution of the body every
primitive step observes `_committing = true`, including steps inside nested
re-entrant `withCommitP` blocks (the trace of `execP` records the flag at
each primitive step); in particular a top-level call entered with the flag
`false` leaves it `false`. -/
theorem withCommit_committing_window (p : CProg) (c : Bool) (st : JVal)
    (s : Store) (f : Store → Store × Unit) :
    (s.withCommit f).1.committing = s.committing ∧
    (execP (.withCommitP p) c st).1 = c ∧
    ((execP (.withCommitP p) c st).2.2).all (fun b => b) = true := by
  refine ⟨rfl, rfl, ?_⟩
  simpa [execP] using execP_trace_true p st

/-! ## Unknown commit / dispatch types (C7) -/

/-- C7: a commit or dispatch whose type has no entry in the corresponding
registry reports a console error (dev builds only) and is otherwise a no-op:
the store is returned unchanged (no handler runs, no subscriber event is
emitted, the state is untouched), `dispatch` returns `undefined` (`none`)
instead of a promise, and nothing is thrown. -/
theorem unknown_type_noop (dev : Bool) (s : Store) (type : String)
    (payload opts : JVal) :
    (getKey s.mutations type = none →
      s.commit dev (.str type) payload opts =
        (s, if dev then [Ev.report ("unknown mutation type: " ++ type)] else [])) ∧
    (getKey s.actions type = none →
      s.dispatch dev (.str type) payload =
        (if dev then [Ev.report ("unknown action type: " ++ type)] else [], none)) := by
  constructor
  · intro h
    simp [Store.commit, unifyObjectStyle, isObject, h]
  · intro h
    simp [Store.dispatch, unifyObjectStyle, isObject, h]

/-- Witness for C7 at the empty store and the unregistered type `"z"`. -/
theorem unknown_type_noop_witness :
    getKey emptyStore.mutations "z" = none ∧
    getKey emptyStore.actions "z" = none ∧
    Store.commit true emptyStore (.str "z") .undefined .undefined =
      (emptyStore, [Ev.report ("unknown mutation type: " ++ "z")]) ∧
    Store.dispatch true emptyStore (.str "z") .undefined =
      ([Ev.report ("unknown action type: " ++ "z")], none) := by
  refine ⟨rfl, rfl, ?_, ?_⟩
  · simpa using (unknown_type_noop true emptyStore "z" .undefined .undefined).1 rfl
  · simpa using (unknown_type_noop true emptyStore "z" .undefined .undefined).2 rfl

/-! ## Commit fan-out (C4) -/

theorem unify_str (t0 : String) (p o : JVal) :
    unifyObjectStyle (.str t0) p o = (.str t0, p, o) := rfl

theorem runMutHandlersAux_spec (payload : JVal) :
    ∀ (entry : List (JVal → JVal → JVal)) (i : Nat) (s : Store),
      s.committing = true →
      (runMutHandlersAux payload i entry s).2 =
        (List.range entry.length).map (fun j => Ev.mutHandler (i + j) true) ∧
      (runMutHandlersAux payload i entry s).1 =
        {s with stateData := entry.foldl (fun st h => h payload st) s.stateData} := by
  intro entry
  induction entry with
  | nil => intro i s hc; exact ⟨rfl, rfl⟩
  | cons h rest ih =>
    intro i s hc
    obtain ⟨cm, std, mu, ac, wg, mn, su, asu, mo⟩ := s
    change cm = true at hc
    subst hc
    have ihs := ih (i + 1) ⟨true, h payload std, mu, ac, wg, mn, su, asu, mo⟩ rfl
    refine ⟨?_, ?_⟩
    · show Ev.mutHandler i true ::
        (runMutHandlersAux payload (i + 1) rest
          ⟨true, h payload std, mu, ac, wg, mn, su, asu, mo⟩).2 = _
      rw [ihs.1, List.length_cons, List.range_succ_eq_map, List.map_cons,
        List.map_map, Nat.add_zero]
      congr 1
      apply List.map_congr_left
      intro j _
      show Ev.mutHandler (i + 1 + j) true = Ev.mutHandler (i + Nat.succ j) true
      congr 1
      omega
    · show (runMutHandlersAux payload (i + 1) rest
        ⟨true, h payload std, mu, ac, wg, mn, su, asu, mo⟩).1 = _
      rw [ihs.2]
      simp

/-- C4: a commit of a fully-qualified mutation type with N registered
handlers invokes each of the N handlers exactly once, in registration order
(the entry list is built by appends in `registerMutation`, so index order is
registration order), each inside the committing window
(`Ev.mutHandler i true`), and only after all N handlers have run are the
mutation subscribers notified; the resulting state is the in-order fold of
the handlers over the previous state and `_committing` is restored. -/
theorem commit_fanout (dev : Bool) (s : Store) (type : String) (payload : JVal)
    (entry : List (JVal → JVal → JVal))
    (h : getKey s.mutations type = some entry) :
    (s.commit dev (.str type) payload .undefined).2 =
      (List.range entry.length).map (fun i => Ev.mutHandler i true) ++
        s.subscribers.map Ev.mutNotify ∧
    (s.commit dev (.str type) payload .undefined).1 =
      {s with stateData := entry.foldl (fun st h => h payload st) s.stateData} := by
  have hw := runMutHandlersAux_spec payload entry 0 {s with committing := true} rfl
  constructor
  · simp only [Store.commit, unify_str, h, Store.withCommit, runMutHandlers]
    rw [hw.1, hw.2]
    simp [jsGet, truthy]
  · simp only [Store.commit, unify_str, h, Store.withCommit, runMutHandlers]
    rw [hw.2]

/-- Witness for C4 at a store with two handlers for `"m"` and two
subscribers. -/
theorem commit_fanout_witness :
    getKey fanStore.mutations "m" = some fanEntry ∧
    ((fanStore.commit true (.str "m") .undefined .undefined).2 =
      (List.range fanEntry.length).map (fun i => Ev.mutHandler i true) ++
        fanStore.subscribers.map Ev.mutNotify ∧
    (fanStore.commit true (.str "m") .undefined .undefined).1 =
      {fanStore with stateData :=
        fanEntry.foldl (fun st h => h .undefined st) fanStore.stateData}) :=
  ⟨rfl, commit_fanout true fanStore "m" .undefined fanEntry rfl⟩

/-! ## Dispatch aggregation (C2) -/

theorem seqSettled_ok_all :
    ∀ (l : List Settled) (vs : List JVal), seqSettled l = .ok vs →
      l.all settledOk = true := by
  intro l
  induction l with
  | nil => intro vs _; rfl
  | cons o rest ih =>
    intro vs h
    cases o with
    | error e => simp [seqSettled] at h
    | ok v =>
      cases hr : seqSettled rest with
      | error e => rw [seqSettled, hr] at h; simp [Except.map] at h
      | ok vs' =>
        simp only [List.all_cons, settledOk, Bool.true_and]
        exact ih vs' hr

theorem seqSettled_first_error :
    ∀ (l : List Settled) (i : Nat) (e : JVal),
      (l.take i).all settledOk = true → l.get? i = some (.error e) →
      seqSettled l = .error e := by
  intro l
  induction l with
  | nil => intro i e _ h; simp at h
  | cons o rest ih =>
    intro i e hok h
    cases i with
    | zero =>
      simp only [List.get?_cons_zero, Option.some.injEq] at h
      subst h
      rfl
    | succ i =>
      cases o with
      | error e0 => simp [List.take_succ_cons, settledOk] at hok
      | ok v =>
        simp only [List.take_succ_cons, List.all_cons, settledOk, Bool.true_and] at hok
        simp only [List.get?_cons_succ] at h
        rw [seqSettled, ih i e hok h]
        rfl

theorem dispatch_outcome (dev : Bool) (s : Store) (type : String)
    (payload : JVal) (entry : List (JVal → Settled))
    (h : getKey s.actions type = some entry) :
    (s.dispatch dev (.str type) payload).2 =
      some (if entry.length > 1 then promiseAll (entry.map (fun g => g payload))
            else (entry.map (fun g => g payload)).headD (.ok .undefined)) := by
  simp only [Store.dispatch, unify_str, h]
  split
  · next v heq => rw [heq]
  · next e heq => rw [heq]

/-- C2: for a dispatch of a registered action type — with exactly one
registered handler the returned awaitable settles exactly as that handler's
normalized awaitable (no `Promise.all` aggregation); with N > 1 handlers it
is `Promise.all` over all handlers: it resolves (with all results) only when
every handler settles successfully, and when some handler rejects it rejects
with the error of the earliest rejecting handler, surfacing none of the
other handlers' outcomes (the result carries only that error). -/
theorem dispatch_aggregation (dev : Bool) (s : Store) (type : String)
    (payload : JVal) (entry : List (JVal → Settled)) (f : JVal → Settled)
    (vs : List JVal) (i : Nat) (e : JVal)
    (h : getKey s.actions type = some entry) :
    (entry = [f] → (s.dispatch dev (.str type) payload).2 = some (f payload)) ∧
    (entry.length > 1 → seqSettled (entry.map (fun g => g payload)) = .ok vs →
      (s.dispatch dev (.str type) payload).2 = some (.ok (.arr vs))) ∧
    (entry.length > 1 →
      ((entry.map (fun g => g payload)).take i).all settledOk = true →
      (entry.map (fun g => g payload)).get? i = some (.error e) →
      (s.dispatch dev (.str type) payload).2 = some (.error e)) ∧
    (entry.length > 1 →
      (s.dispatch dev (.str type) payload).2 = some (.ok (.arr vs)) →
      (entry.map (fun g => g payload)).all settledOk = true) := by
  have hd := dispatch_outcome dev s type payload entry h
  refine ⟨?_, ?_, ?_, ?_⟩
  · intro hf
    subst hf
    simpa using hd
  · intro hlen hseq
    rw [hd, if_pos hlen, promiseAll, hseq]
    rfl
  · intro hlen hok herr
    rw [hd, if_pos hlen, promiseAll, seqSettled_first_error _ i e hok herr]
    rfl
  · intro hlen hres
    rw [hd, if_pos hlen] at hres
    simp only [Option.some.injEq] at hres
    unfold promiseAll at hres
    cases hs : seqSettled (entry.map (fun g => g payload)) with
    | error e0 => rw [hs] at hres; simp [Except.map] at hres
    | ok vs' => exact seqSettled_ok_all _ vs' hs

/-- Witness for C2: the singleton entry settles as its handler does; for the
two-handler entry, where the second handler rejects, the aggregate rejects
with that error. -/
theorem dispatch_aggregation_witness :
    getKey actStore.actions "one" = some oneAct ∧
    getKey actStore.actions "two" = some twoAct ∧
    (actStore.dispatch true (.str "one") (.num 5)).2 = some (.ok (.num 5)) ∧
    (actStore.dispatch true (.str "two") .undefined).2 = some (.error (.str "boom")) := by
  refine ⟨rfl, rfl, ?_, ?_⟩
  · exact (dispatch_aggregation true actStore "one" (.num 5) oneAct (fun p => .ok p)
      [] 0 .undefined rfl).1 rfl
  · exact (dispatch_aggregation true actStore "two" .undefined twoAct (fun p => .ok p)
      [] 1 (.str "boom") rfl).2.2.1 (by decide) rfl rfl

/-! ## Action subscriber errors (C6) -/

theorem runPhaseAux_skips (ph : Phase) :
    ∀ (pre post : List Bool) (i : Nat), pre.all (fun b => !b) = true →
      runPhaseAux ph i (pre ++ true :: post) =
        (List.range pre.length).map (fun j => Ev.aSub ph (i + j)) ++
          [Ev.aSub ph (i + pre.length), Ev.aCatch ph] := by
  intro pre
  induction pre with
  | nil =>
    intro post i _
    simp [runPhaseAux]
  | cons b rest ih =>
    intro post i hall
    simp only [List.all_cons, Bool.and_eq_true, Bool.not_eq_true'] at hall
    obtain ⟨hb, hrest⟩ := hall
    subst hb
    show Ev.aSub ph i :: runPhaseAux ph (i + 1) (rest ++ true :: post) = _
    rw [ih post (i + 1) hrest, List.length_cons, List.range_succ_eq_map,
      List.map_cons, List.map_map, Nat.add_zero]
    simp only [List.cons_append, List.cons.injEq, true_and]
    constructor
    · simp
    · congr 1
      · apply List.map_congr_left
        intro j _
        show Ev.aSub ph (i + 1 + j) = Ev.aSub ph (i + Nat.succ j)
        congr 1
        omega
      · have hn : i + 1 + rest.length = i + (rest.length + 1) := by omega
        rw [hn]

/-- Counterexample for C6, refuting it as stated: at `subStore` — one
registered action, two "before" subscribers of which the first throws — the
dispatch's event trace shows the first subscriber running and the exception
being caught, but the second subscriber of the same phase never runs
(`Ev.aSub .before 1` is absent), even though dispatch itself completes and
its awaitable fulfills.  The single `try` wraps the whole subscriber loop
(src/store.js lines 163-173), so a throw skips the rest of the phase. -/
theorem subscriber_throw_skips_rest_cex :
    (subStore.dispatch true (.str "act") .undefined).1 =
      [Ev.aSub .before 0, Ev.aCatch .before] ∧
    Ev.aSub .before 1 ∉ (subStore.dispatch true (.str "act") .undefined).1 ∧
    (subStore.dispatch true (.str "act") .undefined).2 = some (.ok .undefined) := by
  refine ⟨rfl, ?_, rfl⟩
  have h1 : (subStore.dispatch true (.str "act") .undefined).1 =
      [Ev.aSub .before 0, Ev.aCatch .before] := rfl
  rw [h1]
  decide

/-- C6 as amended: an exception thrown inside a before/after/error action
subscriber is caught by the per-phase try/catch (and logged in dev) and
never aborts the dispatch itself — the returned awaitable still settles
exactly as the handlers determine, for any subscriber list — but it does
end that phase early: the subscribers of the same phase after the first
throwing one are skipped. -/
theorem subscriber_throw_caught_not_propagated (dev : Bool) (s : Store)
    (type : String) (payload : JVal) (entry : List (JVal → Settled))
    (ph : Phase) (pre post : List Bool)
    (h : getKey s.actions type = some entry)
    (hpre : pre.all (fun b => !b) = true) :
    (s.dispatch dev (.str type) payload).2 =
      some (if entry.length > 1 then promiseAll (entry.map (fun g => g payload))
            else (entry.map (fun g => g payload)).headD (.ok .undefined)) ∧
    runPhase ph (pre ++ true :: post) =
      (List.range pre.length).map (fun j => Ev.aSub ph j) ++
        [Ev.aSub ph pre.length, Ev.aCatch ph] := by
  refine ⟨dispatch_outcome dev s type payload entry h, ?_⟩
  have hx := runPhaseAux_skips ph pre post 0 hpre
  simpa [runPhase] using hx

/-- Witness for the amended C6 at `subStore`, with the throwing subscriber
preceded by one non-throwing subscriber and followed by one more. -/
theorem subscriber_throw_caught_witness :
    getKey subStore.actions "act" = some subAct ∧
    [false].all (fun b => !b) = true ∧
    ((subStore.dispatch true (.str "act") .undefined).2 =
      some (if subAct.length > 1 then promiseAll (subAct.map (fun g => g .undefined))
            else (subAct.map (fun g => g .undefined)).headD (.ok .undefined)) ∧
    runPhase .before ([false] ++ true :: [false]) =
      (List.range [false].length).map (fun j => Ev.aSub .before j) ++
        [Ev.aSub .before [false].length, Ev.aCatch .before]) :=
  ⟨rfl, rfl, subscriber_throw_caught_not_propagated true subStore "act" .undefined subAct
    .before [false] [false] rfl rfl⟩

/-! ## Scoped-context routing (C5) -/

/-- C5: the scoped context's dispatch and commit normalize the calling
conventions through `unifyObjectStyle` — a string type keeps its payload and
options, an object carrying a truthy `type` becomes the payload with the old
payload shifted to options — and then: with an empty namespace both delegate
directly to the store's top-level dispatch/commit with no rewriting; with a
non-empty namespace, unless `options.root` is truthy the type is rewritten
to `namespace ++ type` before delegating (dispatch delegates `(type,
payload)`, commit also passes the options through), and when `__DEV__` holds
and the rewritten name is absent from the corresponding registry the call
errors and returns without delegating; with `options.root` truthy the
unified type is delegated un-rewritten. -/
theorem local_context_routing (dev : Bool) (nsp : String) (s : Store)
    (ty payload opts : JVal) (fs : List (String × JVal)) (t0 : String) :
    (unifyObjectStyle (.str t0) payload opts = (.str t0, payload, opts)) ∧
    (truthy (jsGet (.obj fs) "type") = true →
      unifyObjectStyle (.obj fs) payload opts =
        (jsGet (.obj fs) "type", .obj fs, payload)) ∧
    (localDispatch dev "" s ty payload opts = .delegated ty payload .undefined) ∧
    (localCommit dev "" s ty payload opts = .delegated ty payload opts) ∧
    (nsp ≠ "" → (!truthy opts || !truthy (jsGet opts "root")) = true →
      ((dev && (getKey s.actions (nsp ++ t0)).isNone) = true →
        localDispatch dev nsp s (.str t0) payload opts = .blocked) ∧
      ((dev && (getKey s.actions (nsp ++ t0)).isNone) = false →
        localDispatch dev nsp s (.str t0) payload opts =
          .delegated (.str (nsp ++ t0)) payload .undefined) ∧
      ((dev && (getKey s.mutations (nsp ++ t0)).isNone) = true →
        localCommit dev nsp s (.str t0) payload opts = .blocked) ∧
      ((dev && (getKey s.mutations (nsp ++ t0)).isNone) = false →
        localCommit dev nsp s (.str t0) payload opts =
          .delegated (.str (nsp ++ t0)) payload opts)) ∧
    (nsp ≠ "" → (!truthy opts || !truthy (jsGet opts "root")) = false →
      localDispatch dev nsp s (.str t0) payload opts =
        .delegated (.str t0) payload .undefined ∧
      localCommit dev nsp s (.str t0) payload opts =
        .delegated (.str t0) payload opts) := by
  refine ⟨rfl, ?_, ?_, ?_, ?_, ?_⟩
  · intro ht
    simp [unifyObjectStyle, isObject, ht]
  · simp [localDispatch]
  · simp [localCommit]
  · intro hne hroot
    refine ⟨?_, ?_, ?_, ?_⟩ <;> intro hreg <;>
      simp [localDispatch, localCommit, hne, unify_str, hroot, hreg]
  · intro hne hroot
    constructor <;> simp [localDispatch, localCommit, hne, unify_str, hroot]

/-- Witness for C5 at `localStore` (registries holding `"a/x"`): a known
local type is rewritten and delegated, an unknown one is blocked in dev, and
the empty namespace delegates unchanged. -/
theorem local_context_routing_witness :
    ("a/" : String) ≠ "" ∧
    (!truthy JVal.undefined || !truthy (jsGet JVal.undefined "root")) = true ∧
    (true && (getKey localStore.actions ("a/" ++ "x")).isNone) = false ∧
    (true && (getKey localStore.actions ("a/" ++ "y")).isNone) = true ∧
    localDispatch true "a/" localStore (.str "x") .undefined .undefined =
      .delegated (.str ("a/" ++ "x")) .undefined .undefined ∧
    localDispatch true "a/" localStore (.str "y") .undefined .undefined = .blocked ∧
    localDispatch true "" localStore (.str "x") .undefined .undefined =
      .delegated (.str "x") .undefined .undefined := by
  refine ⟨by decide, rfl, rfl, rfl, ?_, ?_, ?_⟩
  · exact ((local_context_routing true "a/" localStore (.str "x") .undefined .undefined
      [] "x").2.2.2.2.1 (by decide) rfl).2.1 rfl
  · exact ((local_context_routing true "a/" localStore (.str "y") .undefined .undefined
      [] "y").2.2.2.2.1 (by decide) rfl).1 rfl
  · exact (local_context_routing true "" localStore (.str "x") .undefined .undefined
      [] "x").2.2.1

/-! ## Child state overwrite during installation (C8) -/

/-- Counterexample for C8, refuting it as stated: constructing a store in a
production build (`dev = false`) from `c8Raw` — whose root state already
owns a property `c` with value `10` and which also declares a child module
named `c` with state `20` — overwrites the parent's own property with the
child state and emits no event at all (no warning: the overwrite is silent).
The overwritten property held `10`, not the child-state slot of any previous
install of that module (this is the very first installation and the child's
state is `20`), so the claim's "unless" clause does not apply. -/
theorem install_overwrite_silent_cex :
    jsGet (ModuleCollection.ofOptions c8Raw).root.state "c" = .num 10 ∧
    jsGet c8Prod.1.stateData "c" = .num 20 ∧
    c8Prod.2 = [] ∧
    (JVal.num 10) ≠ (JVal.num 20) := by
  refine ⟨rfl, rfl, rfl, ?_⟩
  intro hx
  simp at hx

/-- C8 as amended: during installation the child state is assigned into the
parent slot unconditionally — it overwrites any existing same-named
property, last registration wins — and in debug builds that overwrite is
never silent (a warning is always emitted when the key already exists),
while in production builds it is silent even when the existing property is
not a pre-existing child-state slot; `_committing` is restored afterwards. -/
theorem install_overwrite_warns_in_dev (dev : Bool) (s : Store)
    (path : List String) (childState : JVal)
    (h : jsHasKey (getNestedState s.stateData path.dropLast)
      (path.getLastD "") = true) :
    (setChildState dev s path childState).1.stateData =
      modifyNested s.stateData path.dropLast
        (fun ps => jsSet ps (path.getLastD "") childState) ∧
    (setChildState dev s path childState).2 =
      (if dev then
        [Ev.warn ("state field " ++ path.getLastD "" ++
          " was overridden by a module with the same name")]
      else []) ∧
    (setChildState dev s path childState).1.committing = s.committing := by
  refine ⟨rfl, ?_, rfl⟩
  show (if (dev && jsHasKey (getNestedState s.stateData path.dropLast)
      (path.getLastD "")) = true then
      [Ev.warn ("state field " ++ path.getLastD "" ++
        " was overridden by a module with the same name")]
    else []) = _
  rw [h, Bool.and_true]

/-- Witness for the amended C8: a debug-build install of child state `20`
over an existing parent property `c` holding `10` warns and overwrites. -/
theorem install_overwrite_warns_in_dev_witness :
    jsHasKey (getNestedState (JVal.obj [("c", .num 10)]) (["c"].dropLast))
      (["c"].getLastD "") = true ∧
    ((setChildState true {emptyStore with stateData := .obj [("c", .num 10)]}
        ["c"] (.num 20)).1.stateData =
      modifyNested (JVal.obj [("c", .num 10)]) (["c"].dropLast)
        (fun ps => jsSet ps (["c"].getLastD "") (.num 20)) ∧
    (setChildState true {emptyStore with stateData := .obj [("c", .num 10)]}
        ["c"] (.num 20)).2 =
      (if true then
        [Ev.warn ("state field " ++ ["c"].getLastD "" ++
          " was overridden by a module with the same name")]
      else []) ∧
    (setChildState true {emptyStore with stateData := .obj [("c", .num 10)]}
        ["c"] (.num 20)).1.committing =
      ({emptyStore with stateData := JVal.obj [("c", .num 10)]} : Store).committing) :=
  ⟨rfl, install_overwrite_warns_in_dev true
    {emptyStore with stateData := .obj [("c", .num 10)]} ["c"] (.num 20) rfl⟩

/-! ## Installation frame lemmas (shared by C1 and C9) -/

theorem sameCore_trans {s1 s2 s3 : Store}
    (h1 : SameCore s1 s2) (h2 : SameCore s2 s3) : SameCore s1 s3 :=
  ⟨h2.1.trans h1.1, h2.2.1.trans h1.2.1, h2.2.2.1.trans h1.2.2.1,
    h2.2.2.2.trans h1.2.2.2⟩

theorem corePres_refl {hot : Bool} (s : Store) : CorePres hot s s :=
  ⟨⟨rfl, rfl, rfl, rfl⟩, fun _ => rfl⟩

theorem corePres_trans {hot : Bool} {s1 s2 s3 : Store}
    (h1 : CorePres hot s1 s2) (h2 : CorePres hot s2 s3) : CorePres hot s1 s3 :=
  ⟨sameCore_trans h1.1 h2.1, fun hh => (h2.2 hh).trans (h1.2 hh)⟩

theorem nsMapStep_core (dev : Bool) (s : Store) (ns : Bool) (nsp : String)
    (hot : Bool) : CorePres hot s (nsMapStep dev s ns nsp).1 := by
  unfold nsMapStep
  split
  · exact ⟨⟨rfl, rfl, rfl, rfl⟩, fun _ => rfl⟩
  · exact corePres_refl s

theorem setChildState_same (dev : Bool) (s : Store) (path : List String)
    (st : JVal) : SameCore s (setChildState dev s path st).1 :=
  ⟨rfl, rfl, rfl, rfl⟩

theorem spliceStep_core (dev : Bool) (r1 : Store × List Ev) (isRoot hot : Bool)
    (path : List String) (st : JVal) (s : Store) (h1 : CorePres hot s r1.1) :
    CorePres hot s (spliceStep dev r1 isRoot hot path st).1 := by
  unfold spliceStep
  split
  · next hcond =>
    have hhot : hot = false := by
      cases hot
      · rfl
      · simp at hcond
    subst hhot
    exact ⟨sameCore_trans h1.1 (setChildState_same dev r1.1 path st),
      fun hh => Bool.noConfusion hh⟩
  · exact h1

theorem installMutations_core (nsp : String) (path : List String) (hot : Bool) :
    ∀ (ms : List (String × MutFn)) (s : Store),
      CorePres hot s (installMutations s nsp path ms) := by
  intro ms
  induction ms with
  | nil => intro s; exact corePres_refl s
  | cons km rest ih =>
    intro s
    have hstep : CorePres hot s (registerMutation s (nsp ++ km.1) km.2 path) :=
      ⟨⟨rfl, rfl, rfl, rfl⟩, fun _ => rfl⟩
    exact corePres_trans hstep (ih (registerMutation s (nsp ++ km.1) km.2 path))

theorem installActions_core (nsp : String) (hot : Bool) :
    ∀ (as : List (String × ActDef)) (s : Store),
      CorePres hot s (installActions s nsp as) := by
  intro as
  induction as with
  | nil => intro s; exact corePres_refl s
  | cons ka rest ih =>
    intro s
    have hstep : CorePres hot s
        (registerAction s (if ka.2.root then ka.1 else nsp ++ ka.1) ka.2.handler) :=
      ⟨⟨rfl, rfl, rfl, rfl⟩, fun _ => rfl⟩
    exact corePres_trans hstep
      (ih (registerAction s (if ka.2.root then ka.1 else nsp ++ ka.1) ka.2.handler))

theorem registerGetter_core (dev : Bool) (s : Store) (type : String)
    (hot : Bool) : CorePres hot s (registerGetter dev s type).1 := by
  unfold registerGetter
  split
  · exact corePres_refl s
  · exact ⟨⟨rfl, rfl, rfl, rfl⟩, fun _ => rfl⟩

theorem installGettersAux_core (dev : Bool) (nsp : String) (hot : Bool) :
    ∀ (gs : List String) (p : Store × List Ev),
      CorePres hot p.1 ((gs.foldl (fun (p : Store × List Ev) g =>
        let r := registerGetter dev p.1 (nsp ++ g)
        (r.1, p.2 ++ r.2)) p).1) := by
  intro gs
  induction gs with
  | nil => intro p; exact corePres_refl p.1
  | cons g rest ih =>
    intro p
    have hstep : CorePres hot p.1 (registerGetter dev p.1 (nsp ++ g)).1 :=
      registerGetter_core dev p.1 (nsp ++ g) hot
    exact corePres_trans hstep
      (ih ((registerGetter dev p.1 (nsp ++ g)).1,
        p.2 ++ (registerGetter dev p.1 (nsp ++ g)).2))

theorem installGetters_core (dev : Bool) (s : Store) (nsp : String)
    (gs : List String) (hot : Bool) :
    CorePres hot s (installGetters dev s nsp gs).1 :=
  installGettersAux_core dev nsp hot gs (s, [])

mutual

theorem installModule_core (dev : Bool) (s : Store) (path : List String)
    (m : Module) (hot : Bool) :
    CorePres hot s (installModule dev s path m hot).1 := by
  match m with
  | .mk ns ms as gs rt st cs =>
    have h2 : CorePres hot s
        (spliceStep dev (nsMapStep dev s ns ((s.modules.getNamespace path).getD ""))
          path.isEmpty hot path st).1 :=
      spliceStep_core dev _ path.isEmpty hot path st s
        (nsMapStep_core dev s ns ((s.modules.getNamespace path).getD "") hot)
    have h3 := installMutations_core ((s.modules.getNamespace path).getD "") path hot ms
      (spliceStep dev (nsMapStep dev s ns ((s.modules.getNamespace path).getD ""))
        path.isEmpty hot path st).1
    have h4 := installActions_core ((s.modules.getNamespace path).getD "") hot as
      (installMutations
        (spliceStep dev (nsMapStep dev s ns ((s.modules.getNamespace path).getD ""))
          path.isEmpty hot path st).1 ((s.modules.getNamespace path).getD "") path ms)
    have h5 := installGetters_core dev
      (installActions (installMutations
        (spliceStep dev (nsMapStep dev s ns ((s.modules.getNamespace path).getD ""))
          path.isEmpty hot path st).1 ((s.modules.getNamespace path).getD "") path ms)
        ((s.modules.getNamespace path).getD "") as)
      ((s.modules.getNamespace path).getD "") gs hot
    have h6 := installChildren_core dev
      ((installGetters dev
        (installActions (installMutations
          (spliceStep dev (nsMapStep dev s ns ((s.modules.getNamespace path).getD ""))
            path.isEmpty hot path st).1 ((s.modules.getNamespace path).getD "") path ms)
          ((s.modules.getNamespace path).getD "") as)
        ((s.modules.getNamespace path).getD "") gs).1)
      path cs hot
    exact corePres_trans h2 (corePres_trans h3 (corePres_trans h4
      (corePres_trans h5 h6)))

theorem installChildren_core (dev : Bool) (s : Store) (path : List String)
    (cs : List (String × Module)) (hot : Bool) :
    CorePres hot s (installChildren dev s path cs hot).1 := by
  match cs with
  | [] => exact corePres_refl s
  | (k, c) :: rest =>
    have h1 := installModule_core dev s (path ++ [k]) c hot
    have h2 := installChildren_core dev
      (installModule dev s (path ++ [k]) c hot).1 path rest hot
    exact corePres_trans h1 h2

end

/-- `resetStore` rebuilds the registries with `hot = true`, so it leaves the
composed state, the module tree, the committing flag and both subscriber
lists untouched. -/
theorem resetStore_frame (dev : Bool) (s : Store) (hot : Bool) :
    (resetStore dev s hot).1.stateData = s.stateData ∧
    (resetStore dev s hot).1.modules = s.modules ∧
    (resetStore dev s hot).1.committing = s.committing := by
  have h := installModule_core dev
    {s with actions := [], mutations := [], wrappedGetters := [],
            modulesNamespaceMap := []} []
    ({s with actions := [], mutations := [], wrappedGetters := [],
             modulesNamespaceMap := []} : Store).modules.root true
  exact ⟨h.2 rfl, h.1.1, h.1.2.1⟩

/-! ## Unregistering a statically declared module (C1) -/

theorem mc_unregister_static (dev : Bool) (mc : ModuleCollection)
    (path : List String) (parent child : Module)
    (hparent : mc.get path.dropLast = some parent)
    (hchild : parent.getChild (path.getLastD "") = some child)
    (hrt : child.runtime = false) :
    mc.unregister dev path = (mc, []) := by
  simp only [ModuleCollection.unregister, hparent, hchild, hrt]
  simp

/-- Counterexample for C1, refuting it as stated: in the store built from
`c1Raw`, whose module `a` is statically declared (its `runtime` flag is
`false`), `unregisterModule(["a"])` leaves the module registered
(`hasModule` is still `true`) but does **not** leave the composed state
untouched — the state slice `state.a`, present before the call, is deleted
by the unconditional `delete parentState[path[path.length - 1]]` in
`Store.unregisterModule`, and the rebuild runs in hot mode so it is not
restored. -/
theorem unregister_static_cex :
    (c1Root.getChild "a").map Module.runtime = some false ∧
    jsHasKey c1Store.stateData "a" = true ∧
    c1After.hasModule ["a"] = true ∧
    jsHasKey c1After.stateData "a" = false :=
  ⟨rfl, rfl, rfl, rfl⟩

/-- C1 as amended: `unregisterModule` on a path whose module was statically
declared (runtime flag false) leaves the module tree unchanged — the module
stays registered and `hasModule(path)` still returns `true` — but the
composed state is not untouched: the state slice at that path is
unconditionally deleted from the parent state, and the hot-mode reinstall
does not restore it. -/
theorem unregister_static_keeps_module_deletes_state (dev : Bool) (s : Store)
    (path : List String) (parent child : Module)
    (hparent : s.modules.get path.dropLast = some parent)
    (hchild : parent.getChild (path.getLastD "") = some child)
    (hrt : child.runtime = false) :
    (s.unregisterModule dev path).1.modules = s.modules ∧
    (s.unregisterModule dev path).1.hasModule path = true ∧
    (s.unregisterModule dev path).1.stateData =
      modifyNested s.stateData path.dropLast
        (fun ps => jsDelete ps (path.getLastD "")) := by
  have hmc := mc_unregister_static dev s.modules path parent child hparent hchild hrt
  simp only [Store.unregisterModule, hmc, Store.withCommit]
  have hm : (resetStore dev {s with stateData := modifyNested s.stateData path.dropLast (fun ps => jsDelete ps (path.getLastD ""))} false).1.modules = s.modules :=
    (resetStore_frame dev _ false).2.1
  refine ⟨?_, ?_, ?_⟩
  · exact (resetStore_frame dev _ false).2.1
  · show (resetStore dev {s with stateData := modifyNested s.stateData path.dropLast (fun ps => jsDelete ps (path.getLastD ""))} false).1.hasModule path = true
    rw [Store.hasModule, hm]
    have hchild2 : parent.getChild (path.getLast?.getD "") = some child := by
      simpa using hchild
    simp [ModuleCollection.isRegistered, hparent, Module.hasChild, hchild2]
  · exact (resetStore_frame dev _ false).1

/-- Witness for the amended C1 at the concrete store built from `c1Raw`. -/
theorem unregister_static_keeps_module_deletes_state_witness :
    c1Store.modules.get (["a"].dropLast) = some c1Root ∧
    c1Root.getChild (["a"].getLastD "") = some c1Child ∧
    c1Child.runtime = false ∧
    ((c1Store.unregisterModule true ["a"]).1.modules = c1Store.modules ∧
     (c1Store.unregisterModule true ["a"]).1.hasModule ["a"] = true ∧
     (c1Store.unregisterModule true ["a"]).1.stateData =
       modifyNested c1Store.stateData (["a"].dropLast)
         (fun ps => jsDelete ps (["a"].getLastD ""))) :=
  ⟨rfl, rfl, rfl,
    unregister_static_keeps_module_deletes_state true c1Store ["a"] c1Root c1Child
      rfl rfl rfl⟩

/-! ## Hot update preserves materialized state (C9) -/

theorem childStateTrees_setKey (k : String) (c c' : Module)
    (he : c'.stateTree = c.stateTree) :
    ∀ (cs : List (String × Module)), getKey cs k = some c →
      childStateTrees (setKey cs k c') = childStateTrees cs := by
  intro cs
  induction cs with
  | nil => intro h; simp [getKey] at h
  | cons kc rest ih =>
    intro h
    obtain ⟨k0, c0⟩ := kc
    by_cases hk : k0 = k
    · subst hk
      have hc0 : c0 = c := by simpa [getKey] using h
      subst hc0
      simp [setKey, childStateTrees, he]
    · have hr : getKey rest k = some c := by simpa [getKey, hk] using h
      simp [setKey, hk, childStateTrees, ih hr]

theorem stateTree_addChild (m : Module) (k : String) (c c' : Module)
    (h : m.getChild k = some c) (he : c'.stateTree = c.stateTree) :
    (m.addChild k c').stateTree = m.stateTree := by
  match m with
  | .mk ns ms as gs rt st cs =>
    show StateTree.node st (childStateTrees (setKey cs k c')) =
      StateTree.node st (childStateTrees cs)
    rw [childStateTrees_setKey k c c' he cs h]

mutual

theorem updateModuleDef_stateTree (dev : Bool) (path : List String)
    (target : Module) (raw : RawModule) :
    (updateModuleDef dev path target raw).1.stateTree = target.stateTree := by
  match raw with
  | .mk ns st ms as gs mods =>
    have h := updateChildrenDef_stateTree dev path
      (target.update (.mk ns st ms as gs mods)) mods
    refine h.trans ?_
    match target with
    | .mk tns tms tas tgs trt tst tcs => rfl

theorem updateChildrenDef_stateTree (dev : Bool) (path : List String)
    (target : Module) (mods : List (String × RawModule)) :
    (updateChildrenDef dev path target mods).1.stateTree = target.stateTree := by
  match mods with
  | [] => rfl
  | (k, newChild) :: rest =>
    cases hc : target.getChild k with
    | none => simp [updateChildrenDef, hc]
    | some c =>
      have h1 := updateModuleDef_stateTree dev (path ++ [k]) c newChild
      have h2 := updateChildrenDef_stateTree dev path
        (target.addChild k (updateModuleDef dev (path ++ [k]) c newChild).1) rest
      calc (updateChildrenDef dev path target ((k, newChild) :: rest)).1.stateTree
          = (updateChildrenDef dev path
              (target.addChild k (updateModuleDef dev (path ++ [k]) c newChild).1)
              rest).1.stateTree := by
            simp [updateChildrenDef, hc]
        _ = (target.addChild k
              (updateModuleDef dev (path ++ [k]) c newChild).1).stateTree := h2
        _ = target.stateTree := stateTree_addChild target k c _ hc h1

end

theorem mc_update_stateTree (dev : Bool) (mc : ModuleCollection)
    (raw : RawModule) :
    (mc.update dev raw).1.root.stateTree = mc.root.stateTree :=
  updateModuleDef_stateTree dev [] mc.root raw

/-- C9: `hotUpdate` with a definition tree that introduces no structurally
new child keys preserves every module's current materialized state value:
the composed state after `hotUpdate` equals the composed state before it,
and the tree of per-module state values is unchanged.  (`Module.update`,
modelled from the spec since module.js is not among the sources, replaces
only the handler/getter definitions; the reinstall runs in hot mode and the
state reset re-wraps the same composed state object.) -/
theorem hotUpdate_preserves_state (dev : Bool) (s : Store) (newRaw : RawModule)
    (h : rawCompatible s.modules.root newRaw = true) :
    (s.hotUpdate dev newRaw).1.stateData = s.stateData ∧
    (s.hotUpdate dev newRaw).1.modules.root.stateTree =
      s.modules.root.stateTree := by
  have hframe := resetStore_frame dev
    {s with modules := (s.modules.update dev newRaw).1} true
  constructor
  · exact hframe.1
  · show (resetStore dev {s with modules := (s.modules.update dev newRaw).1}
        true).1.modules.root.stateTree = s.modules.root.stateTree
    rw [hframe.2.1]
    exact mc_update_stateTree dev s.modules newRaw

/-- Witness for C9 at the one-module store `c9Store` and the replacement
definition tree `c9NewRaw` (same structure, new mutation definitions). -/
theorem hotUpdate_preserves_state_witness :
    rawCompatible c9Store.modules.root c9NewRaw = true ∧
    ((c9Store.hotUpdate true c9NewRaw).1.stateData = c9Store.stateData ∧
     (c9Store.hotUpdate true c9NewRaw).1.modules.root.stateTree =
       c9Store.modules.root.stateTree) :=
  ⟨rfl, hotUpdate_preserves_state true c9Store c9NewRaw rfl⟩

end VuexRv
